/-
Verification of the pybadges badge-generation core against its design
specification.

The development shallowly embeds `pybadges/__init__.py`:
  * optional string parameters become `Option String`, with Python truthiness
    (`None` and `""` are falsy) modelled by `truthy`;
  * bytes become `List Nat`;
  * fallible code returns `Except`; the distinct Python exception classes
    (`ValueError` raised by the image code, `requests.HTTPError` raised by
    `raise_for_status`, the `ValueError` raised by a failed tuple unpacking)
    become distinct constructors of `EmbedError`;
  * external collaborators (the HTTP client, the filesystem, the `filetype`
    sniffing library, `mimetypes.guess_type`, the text measurer, the Jinja2
    template and the minidom parser/serializer) are function parameters;
  * the minidom DOM is the inductive `Node`; `_remove_blanks` and
    `Node.normalize` are translated from their Python sources.
-/
import Mathlib

/-! ## Basic helpers -/

/-- Python truthiness of an `Optional[str]`: `None` and `""` are falsy. -/
def truthy : Option String → Bool
  | none => false
  | some s => !s.isEmpty

/-- ASCII lowercase of a byte, as `bytes.lower()` does per byte. -/
def byteLower (b : Nat) : Nat := if 65 ≤ b ∧ b ≤ 90 then b + 32 else b

/-- `s.split("/", 1)[0]`: everything before the first slash
(the whole string when there is none). -/
def mimeMajor (m : String) : String := String.mk (m.toList.takeWhile (fun c => c != '/'))

/-- `s.lower()` (ASCII part), character by character. -/
def strLower (s : String) : String := String.mk (s.toList.map Char.toLower)

/-- Characters allowed in a URL scheme by `urllib.parse` (letters, digits,
`+`, `-`, `.`). -/
def schemeChar (c : Char) : Bool := c.isAlpha || c.isDigit || c == '+' || c == '-' || c == '.'

/-- The scheme extracted by `urllib.parse.urlparse(url).scheme`: the text
before the first `:`, lowercased, provided it is nonempty, starts with an
ASCII letter, consists of scheme characters, and a `:` actually occurs.
Returns `""` when there is no scheme. -/
def urlScheme (url : String) : String :=
  let l := url.toList
  let pre := l.takeWhile (fun c => c != ':')
  if pre.length < l.length && !pre.isEmpty &&
      (match pre with | c :: _ => c.isAlpha | [] => false) && pre.all schemeChar
  then String.mk (pre.map Char.toLower)
  else ""

/-! ## Base64 (model of `base64.b64encode`) -/

def b64Alphabet : List Char :=
  ("ABCDEFGHIJKLMNOPQRSTUVWXYZabcdefghijklmnopqrstuvwxyz0123456789+/").toList

def b64Char (i : Nat) : Char := b64Alphabet.getD i 'A'

/-- RFC 4648 base64 of a byte list, with `=` padding. -/
def b64encode : List Nat → List Char
  | [] => []
  | [a] => [b64Char (a / 4), b64Char (a % 4 * 16), '=', '=']
  | [a, b] => [b64Char (a / 4), b64Char (a % 4 * 16 + b / 16), b64Char (b % 16 * 4), '=']
  | a :: b :: c :: rest =>
      b64Char (a / 4) :: b64Char (a % 4 * 16 + b / 16) ::
      b64Char (b % 16 * 4 + c / 64) :: b64Char (c % 64) :: b64encode rest

/-- `f"data:{mime};base64,{encoded}"` with `encoded = b64encode(data)`. -/
def dataUri (mime : String) (bytes : List Nat) : String :=
  "data:" ++ mime ++ ";base64," ++ String.mk (b64encode bytes)

/-! ## Error taxonomy

The Python code raises `ValueError` for image problems, `requests.HTTPError`
(from `raise_for_status`) for transport problems, and a `ValueError` from the
failed two-element unpacking of `content_type.split("/", 1)` when the header
has no slash. The three provenances are kept as distinct constructors. -/

inductive EmbedError where
  | invalidImage (msg : String)
  | transport (status : Nat)
  | unpack
deriving DecidableEq, Repr

/-- A model of the `requests` response: status code, the value of
`resp.headers.get("content-type")`, and the body bytes. -/
structure HttpResponse where
  status : Nat
  contentType : Option String
  body : List Nat
deriving DecidableEq, Repr

/-! ## Image resolution (`_fetch_remote_image`, `_fetch_local_image_and_mime`,
`_embed_image`) -/

/-- Translation of `_fetch_remote_image`, applied to the response of the
blocking `requests.get(url)`.  `raise_for_status` raises exactly for
4xx/5xx status codes. -/
def _fetch_remote_image (resp : HttpResponse) : Except EmbedError (List Nat × String) :=
  if 400 ≤ resp.status ∧ resp.status < 600 then
    .error (.transport resp.status)
  else
    match resp.contentType with
    | none => .error (.invalidImage "no \"Content-Type\" header")
    | some ct =>
      if ct.isEmpty then .error (.invalidImage "no \"Content-Type\" header")
      else if ct.toList.contains '/' then
        let major := mimeMajor ct
        if strLower major != "image" then
          .error (.invalidImage ("expected an image, got \"" ++ major ++ "\""))
        else
          .ok (resp.body, ct)
      else
        .error .unpack

/-- The first 500 bytes, ASCII-lowercased: `data[:500].lower()`. -/
def svgHead (data : List Nat) : List Nat := (data.take 500).map byteLower

/-- The byte string `b"<svg"`. -/
def svgTag : List Nat := [60, 115, 118, 103]

/-- Byte-string containment (`pat in l`, Python's `in` on bytes). -/
def bytesHas (pat : List Nat) : List Nat → Bool
  | [] => pat.isEmpty
  | b :: rest => pat.isPrefixOf (b :: rest) || bytesHas pat rest

/-- Translation of `_fetch_local_image_and_mime`.  `sniff` models
`filetype.guess(data)` (returning the guessed MIME string or none) and
`guess` models `mimetypes.guess_type(path)` (first component). `data` is the
content read from `path`. -/
def _fetch_local_image_and_mime (sniff : List Nat → Option String)
    (guess : String → Option String) (data : List Nat) (path : String) :
    Except EmbedError (List Nat × String) :=
  match sniff data with
  | some mime =>
    if mime.toList.take 6 = ("image/").toList then
      .ok (data, mime)
    else
      .error (.invalidImage ("expected an image, got \"" ++ mimeMajor mime ++ "\""))
  | none =>
    if bytesHas svgTag (svgHead data) then
      .ok (data, "image/svg+xml")
    else
      match guess path with
      | some g =>
        if mimeMajor g != "image" then
          .error (.invalidImage ("expected an image, got \"" ++ mimeMajor g ++ "\""))
        else
          .ok (data, g)
      | none => .error (.invalidImage "not able to determine file type")

/-- Modelled from the claim's words (three-stage fallback with earlier stages
taking precedence): (1) sniffed MIME wins, failing when its major type is not
`image`; (2) otherwise an occurrence of `<svg` in the lowercased first 500
bytes classifies the file as `image/svg+xml`; (3) otherwise the extension
guess, failing when its major type is not `image`, or with `not able to
determine file type` when there is no guess. -/
def localMimeSpec (sniff : List Nat → Option String)
    (guess : String → Option String) (data : List Nat) (path : String) :
    Except EmbedError (List Nat × String) :=
  match sniff data with
  | some mime =>
    if mimeMajor mime = "image" then
      .ok (data, mime)
    else
      .error (.invalidImage ("expected an image, got \"" ++ mimeMajor mime ++ "\""))
  | none =>
    if bytesHas svgTag (svgHead data) then
      .ok (data, "image/svg+xml")
    else
      match guess path with
      | some g =>
        if mimeMajor g != "image" then
          .error (.invalidImage ("expected an image, got \"" ++ mimeMajor g ++ "\""))
        else
          .ok (data, g)
      | none => .error (.invalidImage "not able to determine file type")

/-- Translation of `_embed_image`, with the HTTP client and the filesystem
(together with the two MIME classifiers of the local branch) passed as
collaborators. -/
def _embed_image (fetch : String → HttpResponse) (readFile : String → List Nat)
    (sniff : List Nat → Option String) (guess : String → Option String)
    (url : String) : Except EmbedError String :=
  if url.toList.take 5 = ("data:").toList then
    .ok url
  else
    let scheme := urlScheme url
    if scheme = "http" ∨ scheme = "https" then
      match _fetch_remote_image (fetch url) with
      | .ok (data, mime) => .ok (dataUri mime data)
      | .error e => .error e
    else if scheme ≠ "" then
      .error (.invalidImage ("unsupported scheme \"" ++ scheme ++ "\""))
    else
      match _fetch_local_image_and_mime sniff guess (readFile url) url with
      | .ok (data, mime) => .ok (dataUri mime data)
      | .error e => .error e

/-! ## Color table (`_NAME_TO_COLOR`) -/

def _NAME_TO_COLOR : List (String × String) :=
  [("brightgreen", "#4c1"),
   ("green", "#97CA00"),
   ("yellow", "#dfb317"),
   ("yellowgreen", "#a4a61d"),
   ("orange", "#fe7d37"),
   ("red", "#e05d44"),
   ("blue", "#007ec6"),
   ("grey", "#555"),
   ("gray", "#555"),
   ("lightgrey", "#9f9f9f"),
   ("lightgray", "#9f9f9f"),
   ("critical", "#e05d44"),
   ("important", "#fe7d37"),
   ("success", "#4c1"),
   ("informational", "#007ec6"),
   ("inactive", "#9f9f9f")]

/-- `_NAME_TO_COLOR.get(name, name)`: case-sensitive lookup with the input
itself as the default. -/
def colorGet (name : String) : String := (_NAME_TO_COLOR.lookup name).getD name

/-! ## The minidom tree and SVG normalization -/

/-- A minidom node: a text node with its character data, an element with tag
name, attributes and children, or any other node kind (comment, processing
instruction), which both passes below leave untouched. -/
inductive Node where
  | text : List Char → Node
  | elem : String → List (String × String) → List Node → Node
  | other : String → Node

/-- The whitespace stripped by Python's `str.strip()` (ASCII part). -/
def pySpace (c : Char) : Bool :=
  c == ' ' || c == '\t' || c == '\n' || c == '\r' || c == '\x0b' || c == '\x0c'

/-- `s.strip()`: drop leading and trailing whitespace. -/
def pyStrip (s : List Char) : List Char :=
  ((s.dropWhile pySpace).reverse.dropWhile pySpace).reverse

mutual
/-- Translation of `_remove_blanks`: every text child with truthy (nonempty)
data is stripped in place; element children are recursed into; other node
kinds are untouched. -/
def _remove_blanks : Node → Node
  | .text s => if s.isEmpty then .text s else .text (pyStrip s)
  | .elem tag attrs cs => .elem tag attrs (_remove_blanksL cs)
  | .other s => .other s
def _remove_blanksL : List Node → List Node
  | [] => []
  | n :: ns => _remove_blanks n :: _remove_blanksL ns
end

/-- Drop the empty text nodes of a child list (the `if not child.data`
branch of `minidom.Node.normalize`). -/
def dropEmptyTexts : List Node → List Node
  | [] => []
  | .text s :: r => if s.isEmpty then dropEmptyTexts r else .text s :: dropEmptyTexts r
  | .elem tag attrs cs :: r => .elem tag attrs cs :: dropEmptyTexts r
  | .other s :: r => .other s :: dropEmptyTexts r

/-- Prepend text data `s` to a child list, merging it with a leading text
node when there is one (the collapse branch of `minidom.Node.normalize`). -/
def mergeInto (s : List Char) (l : List Node) : List Node :=
  match l with
  | .text t :: r => .text (s ++ t) :: r
  | _ => .text s :: l

/-- Merge every run of adjacent text nodes of a child list. -/
def mergeTexts : List Node → List Node
  | [] => []
  | .text s :: rest => mergeInto s (mergeTexts rest)
  | .elem tag attrs cs :: rest => .elem tag attrs cs :: mergeTexts rest
  | .other s :: rest => .other s :: mergeTexts rest

/-- The effect of `minidom.Node.normalize` on one child list: empty text
nodes are discarded and adjacent text nodes are merged. -/
def normChildren (l : List Node) : List Node := mergeTexts (dropEmptyTexts l)

mutual
/-- Translation of `minidom.Node.normalize`: element children are normalized
recursively, then the child list is cleaned of empty text nodes and has its
adjacent text nodes merged; text and other nodes have no children. -/
def xmlNormalize : Node → Node
  | .text s => .text s
  | .elem tag attrs cs => .elem tag attrs (normChildren (xmlNormalizeL cs))
  | .other s => .other s
def xmlNormalizeL : List Node → List Node
  | [] => []
  | n :: ns => xmlNormalize n :: xmlNormalizeL ns
end

/-- The whole post-processing applied to the parsed document element:
`_remove_blanks(xml)` followed by `xml.normalize()`. -/
def svgNormalize (n : Node) : Node := xmlNormalize (_remove_blanks n)

/-! ## The badge assembler (`badge`) -/

/-- The keyword arguments of `badge` (a `BadgeRequest`): `Optional[str]`
parameters become `Option String`; defaults as in the source. -/
structure BadgeRequest where
  left_text : String
  right_text : Option String := none
  left_link : Option String := none
  right_link : Option String := none
  center_link : Option String := none
  whole_link : Option String := none
  logo : Option String := none
  left_color : String := "#555"
  right_color : String := "#007ec6"
  center_color : Option String := none
  left_title : Option String := none
  right_title : Option String := none
  center_title : Option String := none
  whole_title : Option String := none
  right_image : Option String := none
  center_image : Option String := none
  embed_logo : Bool := false
  embed_right_image : Bool := false
  embed_center_image : Bool := false
  id_suffix : String := ""
deriving DecidableEq, Repr

/-- The keyword arguments passed to `template.render(...)`. -/
structure RenderFields where
  left_text : String
  right_text : Option String
  left_text_width : ℚ
  right_text_width : Option ℚ
  left_link : Option String
  right_link : Option String
  whole_link : Option String
  center_link : Option String
  logo : Option String
  left_color : String
  right_color : String
  center_color : Option String
  left_title : Option String
  right_title : Option String
  center_title : Option String
  whole_title : Option String
  right_image : Option String
  center_image : Option String
  id_suffix : String
deriving DecidableEq, Repr

/-- `(left_link or right_link or center_link) and whole_link`. -/
def condWholeLink (r : BadgeRequest) : Bool :=
  (truthy r.left_link || truthy r.right_link || truthy r.center_link) && truthy r.whole_link

/-- `center_image and not (right_image or right_text)`. -/
def condCenterNoRight (r : BadgeRequest) : Bool :=
  truthy r.center_image && !(truthy r.right_image || truthy r.right_text)

/-- `(center_image and not center_color) or (not center_image and center_color)`. -/
def condCenterColor (r : BadgeRequest) : Bool :=
  (truthy r.center_image && !truthy r.center_color) ||
  (!truthy r.center_image && truthy r.center_color)

/-- The errors `badge` can surface: a `ValueError` from parameter validation,
a propagated image-resolution error, or a minidom parse failure on the
rendered template output. -/
inductive BadgeError where
  | invalidRequest (msg : String)
  | image (e : EmbedError)
  | malformed
deriving DecidableEq, Repr

/-- One `if <image> and <embed_flag>: <image> = _embed_image(<image>)` step,
with the resolver abstracted as `emb`. -/
def embedStep (emb : String → Except EmbedError String) (img : Option String)
    (flag : Bool) : Except BadgeError (Option String) :=
  if truthy img && flag then
    match emb (img.getD "") with
    | .ok s => .ok (some s)
    | .error e => .error (.image e)
  else
    .ok img

/-- The field set built by `badge` and passed to `template.render`, given the
images after their (possible) embedding step. -/
def badgeFields (measure : String → ℚ) (r : BadgeRequest)
    (logo rimg cimg : Option String) : RenderFields :=
  { left_text := r.left_text
    right_text := r.right_text
    left_text_width := measure r.left_text / 10
    right_text_width :=
      if truthy r.right_text then some (measure (r.right_text.getD "") / 10) else none
    left_link := r.left_link
    right_link := r.right_link
    whole_link := r.whole_link
    center_link := r.center_link
    logo := logo
    left_color := colorGet r.left_color
    right_color := colorGet r.right_color
    center_color := if truthy r.center_color then r.center_color.map colorGet else r.center_color
    left_title := r.left_title
    right_title := r.right_title
    center_title := r.center_title
    whole_title := r.whole_title
    right_image := rimg
    center_image := cimg
    id_suffix := r.id_suffix }

/-- Translation of `badge`.  External collaborators are parameters: `emb` is
the image resolver (`_embed_image` with its I/O), `measure` the text
measurer's `text_width`, `render` the Jinja2 template, `parse` the minidom
parser (`none` on non-well-formed XML, otherwise the document element), and
`serialize` minidom's `toxml`. -/
def badge (emb : String → Except EmbedError String) (measure : String → ℚ)
    (render : RenderFields → String) (parse : String → Option Node)
    (serialize : Node → String) (r : BadgeRequest) : Except BadgeError String :=
  if condWholeLink r then
    .error (.invalidRequest "whole_link may not bet set with left_link, right_link, or center_link")
  else if condCenterNoRight r then
    .error (.invalidRequest "cannot have a center_image without a right element")
  else if condCenterColor r then
    .error (.invalidRequest "must have both a center_image and a center_color")
  else
    match embedStep emb r.logo r.embed_logo with
    | .error e => .error e
    | .ok logo =>
      match embedStep emb r.right_image r.embed_right_image with
      | .error e => .error e
      | .ok rimg =>
        match embedStep emb r.center_image r.embed_center_image with
        | .error e => .error e
        | .ok cimg =>
          match parse (render (badgeFields measure r logo rimg cimg)) with
          | none => .error .malformed
          | some root => .ok (serialize (svgNormalize root))

/-- Does a `badge` outcome consist of the validation `ValueError`? -/
def isInvalidRequest : Except BadgeError String → Bool
  | .error (.invalidRequest _) => true
  | _ => false

/-- Does an image-resolution outcome consist of the image `ValueError`? -/
def isInvalidImage {α : Type} : Except EmbedError α → Bool
  | .error (.invalidImage _) => true
  | _ => false

/-! ## Shape predicates for normalized child lists -/

/-- Is the head of a child list not a text node (or the list empty)? -/
def headNotText : List Node → Bool
  | Node.text _ :: _ => false
  | _ => true

/-- A child list is in normalized shape: its text nodes are nonempty and no
two text nodes are adjacent. -/
def okShape : List Node → Bool
  | [] => true
  | .text s :: rest => !s.isEmpty && headNotText rest && okShape rest
  | .elem _ _ _ :: rest => okShape rest
  | .other _ :: rest => okShape rest

/-- No text node of a child list is empty. -/
def noEmptyTexts : List Node → Bool
  | [] => true
  | .text s :: rest => !s.isEmpty && noEmptyTexts rest
  | .elem _ _ _ :: rest => noEmptyTexts rest
  | .other _ :: rest => noEmptyTexts rest

mutual
/-- A node is fully normalized: its text data is stripped, and the child list
of every element is in normalized shape with normalized members. -/
def goodN : Node → Bool
  | .text s => pyStrip s == s
  | .elem _ _ cs => goodL cs && okShape cs
  | .other _ => true
def goodL : List Node → Bool
  | [] => true
  | n :: ns => goodN n && goodL ns
end

/-! ## Concrete collaborator instances used to exercise the theorems -/

/-- A resolver that succeeds with a marked string. -/
def embW : String → Except EmbedError String := fun s => .ok ("resolved:" ++ s)

/-- A resolver that always fails, to witness resolver-independence. -/
def embW2 : String → Except EmbedError String := fun _ => .error (.invalidImage "boom")

/-- A resolver agreeing with `embW` everywhere except on the empty string. -/
def embW3 : String → Except EmbedError String := fun s =>
  if s = "" then .error (.invalidImage "boom") else .ok ("resolved:" ++ s)

/-- A constant text measurer. -/
def measureW : String → ℚ := fun _ => 7

/-- A template that renders the left text. -/
def renderW : RenderFields → String := fun f => f.left_text

/-- A parser producing a one-text-child svg element. -/
def parseW : String → Option Node := fun s => some (.elem "svg" [] [.text s.toList])

/-- A serializer projecting a tag or text. -/
def serializeW : Node → String := fun n =>
  match n with
  | .text s => String.mk s
  | .elem tag _ _ => tag
  | .other s => s

/-- An HTTP client returning a fixed PNG response. -/
def fetchW : String → HttpResponse := fun _ => ⟨200, some "image/png", [1, 2, 3]⟩

/-- A filesystem returning fixed bytes. -/
def readFileW : String → List Nat := fun _ => [9, 9]

/-- A sniffer that always detects PNG. -/
def sniffW : List Nat → Option String := fun _ => some "image/png"

/-- A sniffer that never detects anything. -/
def sniffNoneW : List Nat → Option String := fun _ => none

/-- An extension-based guesser returning plain text. -/
def guessW : String → Option String := fun _ => some "text/plain"

/-! ## Facts about `pyStrip` -/

/-- The head of the list (when there is one) fails `p`. -/
def cleanL (p : Char → Bool) : List Char → Bool
  | [] => true
  | c :: _ => !p c

theorem dropWhile_eq_self_of_cleanL (p : Char → Bool) (l : List Char)
    (h : cleanL p l = true) : l.dropWhile p = l := by
  cases l with
  | nil => rfl
  | cons c r =>
    simp only [cleanL, Bool.not_eq_eq_eq_not, Bool.not_true] at h
    simp [List.dropWhile_cons, h]

theorem cleanL_dropWhile (p : Char → Bool) (l : List Char) :
    cleanL p (l.dropWhile p) = true := by
  induction l with
  | nil => rfl
  | cons c r ih =>
    rw [List.dropWhile_cons]
    by_cases hc : p c = true
    · simpa [hc] using ih
    · simp only [Bool.not_eq_true] at hc
      simp [hc, cleanL]

theorem cleanL_pyStrip (s : List Char) :
    cleanL pySpace (pyStrip s) = true ∧ cleanL pySpace (pyStrip s).reverse = true := by
  unfold pyStrip
  constructor
  · rcases hyr : ((s.dropWhile pySpace).reverse.dropWhile pySpace).reverse with _ | ⟨c, r⟩
    · simp [cleanL]
    · have hx : cleanL pySpace (s.dropWhile pySpace) = true := cleanL_dropWhile _ _
      have hsplit : (s.dropWhile pySpace).reverse.takeWhile pySpace ++
          (s.dropWhile pySpace).reverse.dropWhile pySpace = (s.dropWhile pySpace).reverse :=
        List.takeWhile_append_dropWhile _ _
      have hx2 : s.dropWhile pySpace =
          ((s.dropWhile pySpace).reverse.dropWhile pySpace).reverse ++
          ((s.dropWhile pySpace).reverse.takeWhile pySpace).reverse := by
        conv_lhs => rw [← List.reverse_reverse (s.dropWhile pySpace), ← hsplit]
        rw [List.reverse_append]
      rw [hyr] at hx2
      rw [hx2] at hx
      simpa [cleanL] using hx
  · simpa using cleanL_dropWhile pySpace (s.dropWhile pySpace).reverse

theorem pyStrip_eq_self_of_clean (t : List Char)
    (h1 : cleanL pySpace t = true) (h2 : cleanL pySpace t.reverse = true) :
    pyStrip t = t := by
  unfold pyStrip
  rw [dropWhile_eq_self_of_cleanL _ _ h1, dropWhile_eq_self_of_cleanL _ _ h2,
    List.reverse_reverse]

theorem pyStrip_idem (s : List Char) : pyStrip (pyStrip s) = pyStrip s :=
  pyStrip_eq_self_of_clean _ (cleanL_pyStrip s).1 (cleanL_pyStrip s).2

theorem pyStrip_nil : pyStrip ([] : List Char) = [] := rfl

theorem cleanL_append_left (p : Char → Bool) (a b : List Char) (ha : a ≠ [])
    (h : cleanL p a = true) : cleanL p (a ++ b) = true := by
  cases a with
  | nil => exact absurd rfl ha
  | cons c r => simpa [cleanL] using h

theorem pyStrip_append (a b : List Char) (hsa : pyStrip a = a) (hsb : pyStrip b = b)
    (ha : a ≠ []) (hb : b ≠ []) : pyStrip (a ++ b) = a ++ b := by
  have hca := cleanL_pyStrip a
  have hcb := cleanL_pyStrip b
  rw [hsa] at hca
  rw [hsb] at hcb
  apply pyStrip_eq_self_of_clean
  · exact cleanL_append_left _ _ _ ha hca.1
  · rw [List.reverse_append]
    exact cleanL_append_left _ _ _ (by simpa using hb) hcb.2

/-! ## Equation lemmas for the node transforms -/

theorem mergeInto_nil (s : List Char) : mergeInto s [] = [.text s] := rfl

theorem mergeInto_text (s t : List Char) (r : List Node) :
    mergeInto s (.text t :: r) = .text (s ++ t) :: r := rfl

theorem mergeInto_elem (s : List Char) (tag : String) (attrs : List (String × String))
    (cs r : List Node) :
    mergeInto s (.elem tag attrs cs :: r) = .text s :: .elem tag attrs cs :: r := rfl

theorem mergeInto_other (s : List Char) (t : String) (r : List Node) :
    mergeInto s (.other t :: r) = .text s :: .other t :: r := rfl

theorem mergeTexts_cons_text (s : List Char) (r : List Node) :
    mergeTexts (.text s :: r) = mergeInto s (mergeTexts r) := rfl

theorem goodL_nil : goodL [] = true := by rw [goodL.eq_def]

theorem goodL_cons (n : Node) (ns : List Node) :
    goodL (n :: ns) = (goodN n && goodL ns) := by rw [goodL.eq_def]

theorem goodN_text (s : List Char) : goodN (.text s) = (pyStrip s == s) := by
  rw [goodN.eq_def]

theorem goodN_elem (tag : String) (attrs : List (String × String)) (cs : List Node) :
    goodN (.elem tag attrs cs) = (goodL cs && okShape cs) := by rw [goodN.eq_def]

theorem goodN_other (s : String) : goodN (.other s) = true := by rw [goodN.eq_def]

theorem _remove_blanks_text (s : List Char) :
    _remove_blanks (.text s) = if s.isEmpty then .text s else .text (pyStrip s) := by
  rw [_remove_blanks.eq_def]

theorem _remove_blanks_elem (tag : String) (attrs : List (String × String)) (cs : List Node) :
    _remove_blanks (.elem tag attrs cs) = .elem tag attrs (_remove_blanksL cs) := by
  rw [_remove_blanks.eq_def]

theorem _remove_blanks_other (s : String) : _remove_blanks (.other s) = .other s := by
  rw [_remove_blanks.eq_def]

theorem _remove_blanksL_nil : _remove_blanksL [] = [] := by rw [_remove_blanksL.eq_def]

theorem _remove_blanksL_cons (n : Node) (ns : List Node) :
    _remove_blanksL (n :: ns) = _remove_blanks n :: _remove_blanksL ns := by
  rw [_remove_blanksL.eq_def]

theorem xmlNormalize_text (s : List Char) : xmlNormalize (.text s) = .text s := by
  rw [xmlNormalize.eq_def]

theorem xmlNormalize_elem (tag : String) (attrs : List (String × String)) (cs : List Node) :
    xmlNormalize (.elem tag attrs cs) = .elem tag attrs (normChildren (xmlNormalizeL cs)) := by
  rw [xmlNormalize.eq_def]

theorem xmlNormalize_other (s : String) : xmlNormalize (.other s) = .other s := by
  rw [xmlNormalize.eq_def]

theorem xmlNormalizeL_nil : xmlNormalizeL [] = [] := by rw [xmlNormalizeL.eq_def]

theorem xmlNormalizeL_cons (n : Node) (ns : List Node) :
    xmlNormalizeL (n :: ns) = xmlNormalize n :: xmlNormalizeL ns := by
  rw [xmlNormalizeL.eq_def]

/-! ## Facts about one `normChildren` pass -/

theorem mergeInto_of_headNotText (s : List Char) (l : List Node)
    (h : headNotText l = true) : mergeInto s l = .text s :: l := by
  cases l with
  | nil => rfl
  | cons n r => cases n with
    | text t => simp [headNotText] at h
    | elem tag attrs cs => rfl
    | other t => rfl

theorem headNotText_mergeTexts (l : List Node) :
    headNotText (mergeTexts l) = headNotText l := by
  cases l with
  | nil => rfl
  | cons n r =>
    cases n with
    | text s =>
      rw [mergeTexts_cons_text]
      rcases hM : mergeTexts r with _ | ⟨m, r2⟩
      · rfl
      · cases m <;> rfl
    | elem tag attrs cs => rfl
    | other s => rfl

theorem okShape_mergeTexts (l : List Node) (h : noEmptyTexts l = true) :
    okShape (mergeTexts l) = true := by
  induction l with
  | nil => rfl
  | cons n rest ih =>
    cases n with
    | text s =>
      simp only [noEmptyTexts, Bool.and_eq_true] at h
      have ihr := ih h.2
      rw [mergeTexts_cons_text]
      rcases hM : mergeTexts rest with _ | ⟨m, r2⟩
      · rw [mergeInto_nil]
        simp [okShape, headNotText, h.1]
      · cases m with
        | text t =>
          rw [hM] at ihr
          simp only [okShape, Bool.and_eq_true] at ihr
          rw [mergeInto_text]
          simp only [okShape, Bool.and_eq_true]
          refine ⟨⟨?_, ihr.1.2⟩, ihr.2⟩
          have hs : s ≠ [] := by simpa [List.isEmpty_iff] using h.1
          simp [List.isEmpty_iff, List.append_eq_nil, hs]
        | elem tag attrs cs =>
          rw [hM] at ihr
          rw [mergeInto_elem]
          have hr2 : okShape r2 = true := by simpa [okShape] using ihr
          simp [okShape, headNotText, h.1, hr2]
        | other t =>
          rw [hM] at ihr
          rw [mergeInto_other]
          have hr2 : okShape r2 = true := by simpa [okShape] using ihr
          simp [okShape, headNotText, h.1, hr2]
    | elem tag attrs cs =>
      simp only [noEmptyTexts] at h
      simpa [mergeTexts, okShape] using ih h
    | other s =>
      simp only [noEmptyTexts] at h
      simpa [mergeTexts, okShape] using ih h

theorem dropEmptyTexts_good (l : List Node) (h : goodL l = true) :
    goodL (dropEmptyTexts l) = true := by
  induction l with
  | nil => exact goodL_nil
  | cons n rest ih =>
    rw [goodL_cons] at h
    simp only [Bool.and_eq_true] at h
    cases n with
    | text s =>
      rw [dropEmptyTexts]
      by_cases hs : s.isEmpty = true
      · simp only [hs, if_true]
        exact ih h.2
      · simp only [hs, Bool.false_eq_true, if_false]
        rw [goodL_cons]
        simp [h.1, ih h.2]
    | elem tag attrs cs =>
      rw [dropEmptyTexts, goodL_cons]
      simp [h.1, ih h.2]
    | other s =>
      rw [dropEmptyTexts, goodL_cons]
      simp [h.1, ih h.2]

theorem noEmptyTexts_dropEmptyTexts (l : List Node) :
    noEmptyTexts (dropEmptyTexts l) = true := by
  induction l with
  | nil => rfl
  | cons n rest ih =>
    cases n with
    | text s =>
      rw [dropEmptyTexts]
      by_cases hs : s.isEmpty = true
      · simp only [hs, if_true]
        exact ih
      · simp only [hs, Bool.false_eq_true, if_false]
        simp [noEmptyTexts, hs, ih]
    | elem tag attrs cs =>
      rw [dropEmptyTexts]
      simpa [noEmptyTexts] using ih
    | other s =>
      rw [dropEmptyTexts]
      simpa [noEmptyTexts] using ih

theorem mergeTexts_good (l : List Node) (hg : goodL l = true)
    (hn : noEmptyTexts l = true) : goodL (mergeTexts l) = true := by
  induction l with
  | nil => exact goodL_nil
  | cons n rest ih =>
    rw [goodL_cons] at hg
    simp only [Bool.and_eq_true] at hg
    cases n with
    | text s =>
      simp only [noEmptyTexts, Bool.and_eq_true] at hn
      have ihr := ih hg.2 hn.2
      have hok := okShape_mergeTexts rest hn.2
      rw [mergeTexts_cons_text]
      rcases hM : mergeTexts rest with _ | ⟨m, r2⟩
      · rw [mergeInto_nil, goodL_cons, goodL_nil]
        simp [hg.1]
      · cases m with
        | text t =>
          rw [hM] at ihr hok
          rw [goodL_cons] at ihr
          simp only [okShape, Bool.and_eq_true] at hok
          simp only [Bool.and_eq_true] at ihr
          rw [mergeInto_text, goodL_cons]
          simp only [Bool.and_eq_true]
          refine ⟨?_, ihr.2⟩
          rw [goodN_text] at ihr ⊢
          simp only [beq_iff_eq] at ihr ⊢
          have hst : pyStrip s = s := by
            have h1 := hg.1
            rw [goodN_text] at h1
            simpa using h1
          exact pyStrip_append s t hst ihr.1
            (by simpa [List.isEmpty_iff] using hn.1)
            (by simpa [List.isEmpty_iff] using hok.1.1)
        | elem tag attrs cs =>
          rw [hM] at ihr
          rw [mergeInto_elem, goodL_cons]
          simp [hg.1, ihr]
        | other t =>
          rw [hM] at ihr
          rw [mergeInto_other, goodL_cons]
          simp [hg.1, ihr]
    | elem tag attrs cs =>
      simp only [noEmptyTexts] at hn
      rw [mergeTexts, goodL_cons]
      simp [hg.1, ih hg.2 hn]
    | other s =>
      simp only [noEmptyTexts] at hn
      rw [mergeTexts, goodL_cons]
      simp [hg.1, ih hg.2 hn]

theorem dropEmptyTexts_of_okShape (l : List Node) (h : okShape l = true) :
    dropEmptyTexts l = l := by
  induction l with
  | nil => rfl
  | cons n rest ih =>
    cases n with
    | text s =>
      simp only [okShape, Bool.and_eq_true] at h
      have hs : s.isEmpty = false := by simpa using h.1.1
      rw [dropEmptyTexts]
      simp [hs, ih h.2]
    | elem tag attrs cs =>
      simp only [okShape] at h
      rw [dropEmptyTexts]
      simp [ih h]
    | other s =>
      simp only [okShape] at h
      rw [dropEmptyTexts]
      simp [ih h]

theorem mergeTexts_of_okShape (l : List Node) (h : okShape l = true) :
    mergeTexts l = l := by
  induction l with
  | nil => rfl
  | cons n rest ih =>
    cases n with
    | text s =>
      simp only [okShape, Bool.and_eq_true] at h
      rw [mergeTexts_cons_text, ih h.2]
      exact mergeInto_of_headNotText s rest h.1.2
    | elem tag attrs cs =>
      simp only [okShape] at h
      rw [mergeTexts, ih h]
    | other s =>
      simp only [okShape] at h
      rw [mergeTexts, ih h]

/-! ## One pass of `svgNormalize` reaches a normal form, which both passes fix -/

mutual
theorem goodN_svgNormalize : (n : Node) → goodN (svgNormalize n) = true
  | .text s => by
      unfold svgNormalize
      rw [_remove_blanks_text]
      by_cases hs : s.isEmpty = true
      · simp only [hs, if_true]
        rw [xmlNormalize_text, goodN_text]
        have hnil : s = [] := by simpa [List.isEmpty_iff] using hs
        subst hnil
        simp [pyStrip_nil]
      · simp only [hs, Bool.false_eq_true, if_false]
        rw [xmlNormalize_text, goodN_text]
        simp [pyStrip_idem]
  | .elem tag attrs cs => by
      have ih := goodL_svgNormalizeL cs
      unfold svgNormalize
      rw [_remove_blanks_elem, xmlNormalize_elem, goodN_elem]
      unfold normChildren
      have h1 := dropEmptyTexts_good _ ih
      have h2 := noEmptyTexts_dropEmptyTexts (xmlNormalizeL (_remove_blanksL cs))
      simp [mergeTexts_good _ h1 h2, okShape_mergeTexts _ h2]
  | .other s => by
      unfold svgNormalize
      rw [_remove_blanks_other, xmlNormalize_other, goodN_other]
theorem goodL_svgNormalizeL : (l : List Node) → goodL (xmlNormalizeL (_remove_blanksL l)) = true
  | [] => by rw [_remove_blanksL_nil, xmlNormalizeL_nil, goodL_nil]
  | n :: ns => by
      have h1 := goodN_svgNormalize n
      have h2 := goodL_svgNormalizeL ns
      rw [_remove_blanksL_cons, xmlNormalizeL_cons, goodL_cons]
      unfold svgNormalize at h1
      simp [h1, h2]
end

mutual
theorem fix_of_goodN : (n : Node) → goodN n = true →
    _remove_blanks n = n ∧ xmlNormalize n = n
  | .text s, h => by
      rw [goodN_text] at h
      have hs : pyStrip s = s := by simpa using h
      refine ⟨?_, xmlNormalize_text s⟩
      rw [_remove_blanks_text]
      by_cases he : s.isEmpty = true
      · simp [he]
      · simp [he, hs]
  | .elem tag attrs cs, h => by
      rw [goodN_elem] at h
      simp only [Bool.and_eq_true] at h
      have ih := fix_of_goodL cs h.1
      refine ⟨?_, ?_⟩
      · rw [_remove_blanks_elem, ih.1]
      · rw [xmlNormalize_elem, ih.2]
        unfold normChildren
        rw [dropEmptyTexts_of_okShape _ h.2, mergeTexts_of_okShape _ h.2]
  | .other s, _ => ⟨_remove_blanks_other s, xmlNormalize_other s⟩
theorem fix_of_goodL : (l : List Node) → goodL l = true →
    _remove_blanksL l = l ∧ xmlNormalizeL l = l
  | [], _ => ⟨_remove_blanksL_nil, xmlNormalizeL_nil⟩
  | n :: ns, h => by
      rw [goodL_cons] at h
      simp only [Bool.and_eq_true] at h
      have ih1 := fix_of_goodN n h.1
      have ih2 := fix_of_goodL ns h.2
      refine ⟨?_, ?_⟩
      · rw [_remove_blanksL_cons, ih1.1, ih2.1]
      · rw [xmlNormalizeL_cons, ih1.2, ih2.2]
end

/-! ## Helper lemmas about `badge` -/

theorem contains_iff_mem (l : List Char) (c : Char) : l.contains c = true ↔ c ∈ l := by
  rw [List.contains]
  exact List.elem_iff

theorem embedStep_flag_false (emb : String → Except EmbedError String)
    (img : Option String) : embedStep emb img false = .ok img := by
  simp [embedStep]

theorem embedStep_not_truthy (emb : String → Except EmbedError String)
    (img : Option String) (flag : Bool) (h : truthy img = false) :
    embedStep emb img flag = .ok img := by
  simp [embedStep, h]

theorem embedStep_congr (e e2 : String → Except EmbedError String)
    (img : Option String) (flag : Bool)
    (h : ∀ s : String, s ≠ "" → e s = e2 s) :
    embedStep e img flag = embedStep e2 img flag := by
  unfold embedStep
  by_cases ht : (truthy img && flag) = true
  · simp only [ht, if_true]
    have htr : truthy img = true := by
      simp only [Bool.and_eq_true] at ht
      exact ht.1
    cases img with
    | none => simp [truthy] at htr
    | some s =>
      have hne : s ≠ "" := by
        intro hh
        rw [hh] at htr
        exact absurd htr (by decide)
      rw [show (some s).getD "" = s from rfl, h s hne]
  · simp only [ht, Bool.false_eq_true, if_false]

theorem embedStep_shape (emb : String → Except EmbedError String)
    (img : Option String) (flag : Bool) :
    (∃ o, embedStep emb img flag = .ok o) ∨
    (∃ e, embedStep emb img flag = .error (.image e)) := by
  unfold embedStep
  by_cases h : (truthy img && flag) = true
  · simp only [h, if_true]
    rcases emb (img.getD "") with e | s
    · exact Or.inr ⟨e, rfl⟩
    · exact Or.inl ⟨some s, rfl⟩
  · simp only [h, Bool.false_eq_true, if_false]
    exact Or.inl ⟨img, rfl⟩

theorem badge_invalidRequest_iff (emb : String → Except EmbedError String)
    (m : String → ℚ) (rend : RenderFields → String) (p : String → Option Node)
    (sz : Node → String) (r : BadgeRequest) :
    isInvalidRequest (badge emb m rend p sz r) = true ↔
      (condWholeLink r = true ∨ condCenterNoRight r = true ∨ condCenterColor r = true) := by
  unfold badge
  by_cases h1 : condWholeLink r = true
  · simp [h1, isInvalidRequest]
  · by_cases h2 : condCenterNoRight r = true
    · simp [h1, h2, isInvalidRequest]
    · by_cases h3 : condCenterColor r = true
      · simp [h1, h2, h3, isInvalidRequest]
      · simp only [h1, h2, h3, Bool.false_eq_true, if_false, false_or, iff_false]
        rcases embedStep_shape emb r.logo r.embed_logo with ⟨o1, ho1⟩ | ⟨e1, he1⟩
        · rcases embedStep_shape emb r.right_image r.embed_right_image with
            ⟨o2, ho2⟩ | ⟨e2, he2⟩
          · rcases embedStep_shape emb r.center_image r.embed_center_image with
              ⟨o3, ho3⟩ | ⟨e3, he3⟩
            · rcases hp : p (rend (badgeFields m r o1 o2 o3)) with _ | nd <;>
                simp [ho1, ho2, ho3, hp, isInvalidRequest]
            · simp [ho1, ho2, he3, isInvalidRequest]
          · simp [ho1, he2, isInvalidRequest]
        · simp [he1, isInvalidRequest]

theorem badge_indep_of_invalid (emb emb2 : String → Except EmbedError String)
    (m : String → ℚ) (rend : RenderFields → String) (p : String → Option Node)
    (sz : Node → String) (r : BadgeRequest)
    (h : condWholeLink r = true ∨ condCenterNoRight r = true ∨ condCenterColor r = true) :
    badge emb m rend p sz r = badge emb2 m rend p sz r := by
  unfold badge
  rcases h with h | h | h
  · simp [h]
  · by_cases h1 : condWholeLink r = true <;> simp [h1, h]
  · by_cases h1 : condWholeLink r = true
    · simp [h1]
    · by_cases h2 : condCenterNoRight r = true <;> simp [h1, h2, h]

theorem badge_indep_of_flags (emb emb2 : String → Except EmbedError String)
    (m : String → ℚ) (rend : RenderFields → String) (p : String → Option Node)
    (sz : Node → String) (r : BadgeRequest) (h1 : r.embed_logo = false)
    (h2 : r.embed_right_image = false) (h3 : r.embed_center_image = false) :
    badge emb m rend p sz r = badge emb2 m rend p sz r := by
  unfold badge
  rw [h1, h2, h3]
  simp [embedStep_flag_false]

theorem badge_indep_of_no_images (emb emb2 : String → Except EmbedError String)
    (m : String → ℚ) (rend : RenderFields → String) (p : String → Option Node)
    (sz : Node → String) (r : BadgeRequest) (h1 : truthy r.logo = false)
    (h2 : truthy r.right_image = false) (h3 : truthy r.center_image = false) :
    badge emb m rend p sz r = badge emb2 m rend p sz r := by
  unfold badge
  rw [embedStep_not_truthy emb _ _ h1, embedStep_not_truthy emb2 _ _ h1,
    embedStep_not_truthy emb _ _ h2, embedStep_not_truthy emb2 _ _ h2,
    embedStep_not_truthy emb _ _ h3, embedStep_not_truthy emb2 _ _ h3]

theorem badge_resolver_congr (e e2 : String → Except EmbedError String)
    (m : String → ℚ) (rend : RenderFields → String) (p : String → Option Node)
    (sz : Node → String) (r : BadgeRequest)
    (h : ∀ s : String, s ≠ "" → e s = e2 s) :
    badge e m rend p sz r = badge e2 m rend p sz r := by
  unfold badge
  rw [embedStep_congr e e2 r.logo r.embed_logo h,
    embedStep_congr e e2 r.right_image r.embed_right_image h,
    embedStep_congr e e2 r.center_image r.embed_center_image h]

/-! ## Bridging `startswith("image/")` and the major MIME type -/

theorem take6_image_of_takeWhile (l : List Char) (hmem : '/' ∈ l)
    (h : l.takeWhile (fun c => c != '/') = ("image").toList) :
    l.take 6 = ("image/").toList := by
  have hsplit := List.takeWhile_append_dropWhile (fun c => c != '/') l
  rcases hd : l.dropWhile (fun c => c != '/') with _ | ⟨c, r⟩
  · rw [hd, h] at hsplit
    simp only [List.append_nil] at hsplit
    rw [← hsplit] at hmem
    exact absurd hmem (by decide)
  · have hc := cleanL_dropWhile (fun c => c != '/') l
    rw [hd] at hc
    have hceq : c = '/' := by
      simp only [cleanL, Bool.not_eq_eq_eq_not, Bool.not_true, bne_eq_false_iff_eq] at hc
      exact hc
    rw [hd, h, hceq] at hsplit
    rw [← hsplit]
    rfl

theorem takeWhile_of_take6_image (l : List Char)
    (h : l.take 6 = ("image/").toList) :
    l.takeWhile (fun c => c != '/') = ("image").toList := by
  have hl : l = ("image/").toList ++ l.drop 6 := by
    rw [← h]
    exact (List.take_append_drop 6 l).symm
  rw [hl]
  rfl

theorem mimeMajor_image_iff (m : String) (hmem : '/' ∈ m.toList) :
    m.toList.take 6 = ("image/").toList ↔ mimeMajor m = "image" := by
  constructor
  · intro h
    rw [mimeMajor, String.ext_iff]
    exact takeWhile_of_take6_image _ h
  · intro h
    rw [mimeMajor, String.ext_iff] at h
    exact take6_image_of_takeWhile _ hmem h

/-! ## An `http`/`https` URL does not start with `data:` -/


theorem urlScheme_of_data (url : String) (h : url.toList.take 5 = ("data:").toList) :
    urlScheme url = "data" := by
  have hl : url.toList = ("data:").toList ++ url.toList.drop 5 := by
    rw [← h]
    exact (List.take_append_drop 5 url.toList).symm
  unfold urlScheme
  rw [hl]
  dsimp only
  rw [show List.takeWhile (fun c => c != ':') (("data:").toList ++ url.toList.drop 5) =
    ("data").toList from rfl]
  have hlen : (("data").toList : List Char).length <
      (("data:").toList ++ url.toList.drop 5).length := by
    simp
  simp [hlen, schemeChar]

theorem scheme_http_not_data (url : String)
    (h : urlScheme url = "http" ∨ urlScheme url = "https") :
    ¬(url.toList.take 5 = ("data:").toList) := by
  intro hd
  have hdata := urlScheme_of_data url hd
  rcases h with h | h <;> rw [hdata] at h <;> exact absurd h (by decide)

/-! ## Claim theorems -/

theorem lookup_eq_none_of_keys {β : Type} (l : List (String × β)) (a : String)
    (h : ∀ p ∈ l, p.1 ≠ a) : l.lookup a = none := by
  induction l with
  | nil => rfl
  | cons p t ih =>
    obtain ⟨k, v⟩ := p
    have hk : ¬(k = a) := h (k, v) (List.mem_cons_self _ _)
    have hk2 : (a == k) = false := beq_eq_false_iff_ne.mpr (fun hh => hk hh.symm)
    have ht := ih (fun q hq => h q (List.mem_cons_of_mem _ hq))
    simp [List.lookup, hk2, ht]

theorem truthy_some_of_ne (c : String) (h : c ≠ "") : truthy (some c) = true := by
  cases hc : c.isEmpty
  · simp [truthy, hc]
  · exact absurd ((String.isEmpty_iff c).mp hc) h

theorem truthy_some_empty : truthy (some "") = false := by decide

/-- C4: color resolution never fails: every name of the fixed table maps to
its CSS value (in particular `brightgreen` to `#4c1`), any other string
(case variants of known names included) passes through unchanged, and
`badge` applies the resolution to `left_color`, `right_color` and a present
`center_color`. -/
theorem C4_color_resolution :
    (∀ p ∈ _NAME_TO_COLOR, colorGet p.1 = p.2)
    ∧ colorGet "brightgreen" = "#4c1"
    ∧ (∀ s : String, (∀ p ∈ _NAME_TO_COLOR, p.1 ≠ s) → colorGet s = s)
    ∧ (∀ (m : String → ℚ) (r : BadgeRequest) (lg ri ci : Option String),
        (badgeFields m r lg ri ci).left_color = colorGet r.left_color
        ∧ (badgeFields m r lg ri ci).right_color = colorGet r.right_color
        ∧ (∀ c : String, r.center_color = some c → c ≠ "" →
            (badgeFields m r lg ri ci).center_color = some (colorGet c))) := by
  refine ⟨by decide, rfl, ?_, ?_⟩
  · intro s h
    unfold colorGet
    rw [lookup_eq_none_of_keys _ _ h]
    rfl
  · intro m r lg ri ci
    refine ⟨rfl, rfl, ?_⟩
    intro c hc hne
    simp [badgeFields, hc, truthy_some_of_ne c hne]

theorem C4_color_resolution_witness :
    colorGet "green" = "#97CA00"
    ∧ colorGet "not-a-known-name" = "not-a-known-name"
    ∧ colorGet "BrightGreen" = "BrightGreen"
    ∧ (badgeFields measureW { left_text := "x", center_color := some "red" }
        none none none).center_color = some (colorGet "red") := by
  refine ⟨?_, ?_, ?_, ?_⟩
  · exact C4_color_resolution.1 ("green", "#97CA00") (by decide)
  · exact C4_color_resolution.2.2.1 "not-a-known-name" (by decide)
  · exact C4_color_resolution.2.2.1 "BrightGreen" (by decide)
  · exact (C4_color_resolution.2.2.2 measureW
      { left_text := "x", center_color := some "red" } none none none).2.2 "red" rfl
      (by decide)

/-- C5: the left width is always `text_width(left_text) / 10`; a right width
is computed only for a truthy `right_text`; a `None` or empty `right_text`
yields no width field at all (`none`), which differs from a width of `0`. -/
theorem C5_text_widths (m : String → ℚ) (r : BadgeRequest) (lg ri ci : Option String) :
    (badgeFields m r lg ri ci).left_text_width = m r.left_text / 10
    ∧ (∀ t : String, r.right_text = some t → t ≠ "" →
        (badgeFields m r lg ri ci).right_text_width = some (m t / 10))
    ∧ (r.right_text = none ∨ r.right_text = some "" →
        (badgeFields m r lg ri ci).right_text_width = none)
    ∧ (r.right_text = some "" →
        (badgeFields m r lg ri ci).right_text_width ≠ some 0) := by
  refine ⟨rfl, ?_, ?_, ?_⟩
  · intro t ht hne
    simp [badgeFields, ht, truthy_some_of_ne t hne]
  · intro h
    have htr : truthy r.right_text = false := by
      rcases h with h | h <;> rw [h]
      · rfl
      · exact truthy_some_empty
    simp [badgeFields, htr]
  · intro h
    have htr : truthy r.right_text = false := by
      rw [h]
      exact truthy_some_empty
    simp [badgeFields, htr]

theorem C5_text_widths_witness :
    (badgeFields measureW { left_text := "x", right_text := some "23" }
        none none none).right_text_width = some (measureW "23" / 10)
    ∧ (badgeFields measureW { left_text := "x", right_text := some "" }
        none none none).right_text_width = none := by
  constructor
  · exact (C5_text_widths measureW { left_text := "x", right_text := some "23" }
      none none none).2.1 "23" rfl (by decide)
  · exact (C5_text_widths measureW { left_text := "x", right_text := some "" }
      none none none).2.2.1 (Or.inr rfl)

/-- C6: a reference beginning with the `data:` prefix is returned unchanged
by `_embed_image`, independently of every collaborator (so nothing is
decoded, re-encoded or validated). -/
theorem C6_data_uri_passthrough (fetch : String → HttpResponse)
    (readFile : String → List Nat) (sniff : List Nat → Option String)
    (guess : String → Option String) (url : String)
    (h : url.toList.take 5 = ("data:").toList) :
    _embed_image fetch readFile sniff guess url = .ok url := by
  unfold _embed_image
  rw [if_pos h]

theorem C6_data_uri_passthrough_witness :
    _embed_image fetchW readFileW sniffW guessW "data:image/png;base64,xyz" =
      .ok "data:image/png;base64,xyz" :=
  C6_data_uri_passthrough fetchW readFileW sniffW guessW
    "data:image/png;base64,xyz" (by decide)

/-- C1: `badge` raises the validation `ValueError` exactly when a truthy
`whole_link` meets a truthy `left_link`/`right_link`/`center_link`, or a
truthy `center_image` lacks a truthy right element, or exactly one of
`center_image`/`center_color` is truthy; and when any of these holds the
outcome does not depend on the image resolver (no image resolution, hence no
network or file I/O, happens). -/
theorem C1_validation (emb emb2 : String → Except EmbedError String)
    (m : String → ℚ) (rend : RenderFields → String) (p : String → Option Node)
    (sz : Node → String) (r : BadgeRequest) :
    (isInvalidRequest (badge emb m rend p sz r) = true ↔
      (condWholeLink r = true ∨ condCenterNoRight r = true ∨ condCenterColor r = true))
    ∧ ((condWholeLink r = true ∨ condCenterNoRight r = true ∨ condCenterColor r = true) →
        badge emb m rend p sz r = badge emb2 m rend p sz r) :=
  ⟨badge_invalidRequest_iff emb m rend p sz r,
   badge_indep_of_invalid emb emb2 m rend p sz r⟩

theorem C1_validation_witness :
    isInvalidRequest (badge embW measureW renderW parseW serializeW
      { left_text := "x", whole_link := some "http://e", left_link := some "l" }) = true
    ∧ badge embW measureW renderW parseW serializeW
        { left_text := "x", whole_link := some "http://e", left_link := some "l" } =
      badge embW2 measureW renderW parseW serializeW
        { left_text := "x", whole_link := some "http://e", left_link := some "l" } := by
  constructor
  · exact (C1_validation embW embW2 measureW renderW parseW serializeW
      { left_text := "x", whole_link := some "http://e", left_link := some "l" }).1.mpr
      (Or.inl (by decide))
  · exact (C1_validation embW embW2 measureW renderW parseW serializeW
      { left_text := "x", whole_link := some "http://e", left_link := some "l" }).2
      (Or.inl (by decide))

/-- C8: with all three embed flags `False` and a request passing validation,
`badge` is pure and deterministic: its outcome does not depend on the image
resolver at all (no hidden I/O), so identical inputs give byte-identical
output, and the outcome is not a validation error. -/
theorem C8_deterministic (emb emb2 : String → Except EmbedError String)
    (m : String → ℚ) (rend : RenderFields → String) (p : String → Option Node)
    (sz : Node → String) (r : BadgeRequest)
    (hv : condWholeLink r = false ∧ condCenterNoRight r = false ∧ condCenterColor r = false)
    (h1 : r.embed_logo = false) (h2 : r.embed_right_image = false)
    (h3 : r.embed_center_image = false) :
    badge emb m rend p sz r = badge emb2 m rend p sz r
    ∧ isInvalidRequest (badge emb m rend p sz r) = false := by
  refine ⟨badge_indep_of_flags emb emb2 m rend p sz r h1 h2 h3, ?_⟩
  cases hres : isInvalidRequest (badge emb m rend p sz r) with
  | false => rfl
  | true =>
    have hd := (badge_invalidRequest_iff emb m rend p sz r).mp hres
    rw [hv.1, hv.2.1, hv.2.2] at hd
    simp at hd

theorem C8_deterministic_witness :
    badge embW measureW renderW parseW serializeW { left_text := "build" } =
      badge embW2 measureW renderW parseW serializeW { left_text := "build" }
    ∧ isInvalidRequest
        (badge embW measureW renderW parseW serializeW { left_text := "build" }) = false :=
  C8_deterministic embW embW2 measureW renderW parseW serializeW { left_text := "build" }
    ⟨by decide, by decide, by decide⟩ rfl rfl rfl

/-- C9: empty strings count as absent wherever `badge` tests presence: an
empty `whole_link` never triggers the link clash; an empty `center_color`
counts as unset, so a truthy `center_image` with `center_color = ""` raises
the validation error; and a `None` or empty-string `logo`, `right_image` or
`center_image` is never handed to the image resolver even when its embed
flag is set — every resolver call receives a nonempty reference, so for any
request (mixed slots included) the outcome is unchanged under any resolver
agreeing off the empty string, and a request whose three references are all
`None`-or-empty depends on no resolver at all. -/
theorem C9_empty_as_absent (emb emb2 : String → Except EmbedError String)
    (m : String → ℚ) (rend : RenderFields → String) (p : String → Option Node)
    (sz : Node → String) (r : BadgeRequest) :
    (r.whole_link = some "" → condWholeLink r = false)
    ∧ (r.whole_link = some "" → condCenterNoRight r = false → condCenterColor r = false →
        isInvalidRequest (badge emb m rend p sz r) = false)
    ∧ (truthy r.center_image = true → r.center_color = some "" →
        isInvalidRequest (badge emb m rend p sz r) = true)
    ∧ ((∀ s : String, s ≠ "" → emb s = emb2 s) →
        badge emb m rend p sz r = badge emb2 m rend p sz r)
    ∧ ((r.logo = none ∨ r.logo = some "") → (r.right_image = none ∨ r.right_image = some "") →
        (r.center_image = none ∨ r.center_image = some "") →
        badge emb m rend p sz r = badge emb2 m rend p sz r) := by
  have hwl : r.whole_link = some "" → condWholeLink r = false := by
    intro h
    unfold condWholeLink
    rw [h, truthy_some_empty]
    simp
  refine ⟨hwl, ?_, ?_, ?_, ?_⟩
  · intro h hb hc
    cases hres : isInvalidRequest (badge emb m rend p sz r) with
    | false => rfl
    | true =>
      have hd := (badge_invalidRequest_iff emb m rend p sz r).mp hres
      rw [hwl h, hb, hc] at hd
      simp at hd
  · intro hci hcc
    apply (badge_invalidRequest_iff emb m rend p sz r).mpr
    refine Or.inr (Or.inr ?_)
    unfold condCenterColor
    rw [hci, hcc, truthy_some_empty]
    simp
  · exact badge_resolver_congr emb emb2 m rend p sz r
  · intro hl hr hc
    apply badge_indep_of_no_images
    · rcases hl with h | h <;> rw [h]
      · rfl
      · exact truthy_some_empty
    · rcases hr with h | h <;> rw [h]
      · rfl
      · exact truthy_some_empty
    · rcases hc with h | h <;> rw [h]
      · rfl
      · exact truthy_some_empty

theorem C9_empty_as_absent_witness :
    isInvalidRequest (badge embW measureW renderW parseW serializeW
      { left_text := "x", whole_link := some "", left_link := some "l" }) = false
    ∧ isInvalidRequest (badge embW measureW renderW parseW serializeW
        { left_text := "x", right_text := some "r", center_image := some "ci",
          center_color := some "" }) = true
    ∧ badge embW measureW renderW parseW serializeW
        { left_text := "x", logo := some "", embed_logo := true,
          right_image := some "http://i.png", embed_right_image := true } =
      badge embW3 measureW renderW parseW serializeW
        { left_text := "x", logo := some "", embed_logo := true,
          right_image := some "http://i.png", embed_right_image := true }
    ∧ badge embW measureW renderW parseW serializeW
        { left_text := "x", logo := some "", embed_logo := true } =
      badge embW2 measureW renderW parseW serializeW
        { left_text := "x", logo := some "", embed_logo := true } := by
  refine ⟨?_, ?_, ?_, ?_⟩
  · exact (C9_empty_as_absent embW embW2 measureW renderW parseW serializeW
      { left_text := "x", whole_link := some "", left_link := some "l" }).2.1
      rfl (by decide) (by decide)
  · exact (C9_empty_as_absent embW embW2 measureW renderW parseW serializeW
      { left_text := "x", right_text := some "r", center_image := some "ci",
        center_color := some "" }).2.2.1 (by decide) rfl
  · exact (C9_empty_as_absent embW embW3 measureW renderW parseW serializeW
      { left_text := "x", logo := some "", embed_logo := true,
        right_image := some "http://i.png", embed_right_image := true }).2.2.2.1
      (fun s hs => by simp [embW, embW3, hs])
  · exact (C9_empty_as_absent embW embW2 measureW renderW parseW serializeW
      { left_text := "x", logo := some "", embed_logo := true }).2.2.2.2
      (Or.inr rfl) (Or.inl rfl) (Or.inl rfl)

/-- C10: when the `Content-Type` header of a remote response contains no
slash, `_fetch_remote_image` raises instead of returning (on a success
status with a nonempty header the failure is precisely the two-element
unpacking `ValueError`), and the function returns normally only for headers
containing at least one slash. -/
theorem C10_content_type_unpack (resp : HttpResponse) :
    (∀ ct : String, resp.contentType = some ct → ¬('/' ∈ ct.toList) →
        ∃ e, _fetch_remote_image resp = .error e)
    ∧ (∀ ct : String, ¬(400 ≤ resp.status ∧ resp.status < 600) →
        resp.contentType = some ct → ct ≠ "" → ¬('/' ∈ ct.toList) →
        _fetch_remote_image resp = .error .unpack)
    ∧ (∀ v, _fetch_remote_image resp = .ok v →
        ∃ ct, resp.contentType = some ct ∧ '/' ∈ ct.toList) := by
  refine ⟨?_, ?_, ?_⟩
  · intro ct hct hmem
    unfold _fetch_remote_image
    by_cases hst : 400 ≤ resp.status ∧ resp.status < 600
    · exact ⟨.transport resp.status, by simp [hst]⟩
    · rw [hct]
      by_cases he : ct.isEmpty
      · exact ⟨.invalidImage "no \"Content-Type\" header", by simp [hst, he]⟩
      · have hmem2 : ¬('/' ∈ ct.data) := hmem
        exact ⟨.unpack, by simp [hst, he, hmem2]⟩
  · intro ct hst hct hne hmem
    unfold _fetch_remote_image
    rw [hct]
    have he : ct.isEmpty = false := by
      cases he2 : ct.isEmpty with
      | false => rfl
      | true => exact absurd ((String.isEmpty_iff ct).mp he2) hne
    have hmem2 : ¬('/' ∈ ct.data) := hmem
    simp [hst, he, hmem2]
  · intro v hok
    unfold _fetch_remote_image at hok
    by_cases hst : 400 ≤ resp.status ∧ resp.status < 600
    · simp [hst] at hok
    · rcases hct : resp.contentType with _ | ct
      · rw [hct] at hok
        simp [hst] at hok
      · rw [hct] at hok
        by_cases he : ct.isEmpty
        · simp [hst, he] at hok
        · by_cases hcc : '/' ∈ ct.toList
          · exact ⟨ct, rfl, hcc⟩
          · have hcc2 : ¬('/' ∈ ct.data) := hcc
            simp [hst, he, hcc2] at hok

theorem C10_content_type_unpack_witness :
    _fetch_remote_image ⟨200, some "text", [1]⟩ = .error .unpack :=
  (C10_content_type_unpack ⟨200, some "text", [1]⟩).2.1 "text"
    (by decide) rfl (by decide) (by decide)

theorem isEmpty_false_of_ne (c : String) (h : c ≠ "") : c.isEmpty = false := by
  cases he : c.isEmpty with
  | false => rfl
  | true => exact absurd ((String.isEmpty_iff c).mp he) h

/-- C2 (amended): for a remote (`http`/`https`) reference, a 4xx/5xx status
raises the transport error of `raise_for_status` (`requests.HTTPError`,
distinct from the image `ValueError`); otherwise an absent or empty
`Content-Type` header raises the image `ValueError`, a slash-containing header whose major
type is not `image` up to ASCII case raises the image `ValueError` naming
the major type, and an image-major header makes `_embed_image` return
`data:<content-type>;base64,<base64 body>` with the declared content type
kept verbatim. -/
theorem C2_remote_resolution (fetch : String → HttpResponse)
    (readFile : String → List Nat) (sniff : List Nat → Option String)
    (guess : String → Option String) (url : String) (resp : HttpResponse)
    (hscheme : urlScheme url = "http" ∨ urlScheme url = "https")
    (hresp : fetch url = resp) :
    (400 ≤ resp.status ∧ resp.status < 600 →
        _embed_image fetch readFile sniff guess url = .error (.transport resp.status)
        ∧ isInvalidImage (_embed_image fetch readFile sniff guess url) = false)
    ∧ (¬(400 ≤ resp.status ∧ resp.status < 600) →
        (resp.contentType = none ∨ resp.contentType = some "") →
        _embed_image fetch readFile sniff guess url =
          .error (.invalidImage "no \"Content-Type\" header"))
    ∧ (∀ ct : String, ¬(400 ≤ resp.status ∧ resp.status < 600) →
        resp.contentType = some ct → ct ≠ "" → '/' ∈ ct.toList →
        strLower (mimeMajor ct) ≠ "image" →
        _embed_image fetch readFile sniff guess url =
          .error (.invalidImage ("expected an image, got \"" ++ mimeMajor ct ++ "\"")))
    ∧ (∀ ct : String, ¬(400 ≤ resp.status ∧ resp.status < 600) →
        resp.contentType = some ct → '/' ∈ ct.toList →
        strLower (mimeMajor ct) = "image" →
        _embed_image fetch readFile sniff guess url = .ok (dataUri ct resp.body)) := by
  have hnd := scheme_http_not_data url hscheme
  have hred : _embed_image fetch readFile sniff guess url =
      (match _fetch_remote_image resp with
       | .ok (d, mime) => .ok (dataUri mime d)
       | .error e => .error e) := by
    unfold _embed_image
    rw [if_neg hnd, hresp]
    rcases hscheme with h | h <;> simp [h]
  refine ⟨?_, ?_, ?_, ?_⟩
  · intro hst
    have hf : _fetch_remote_image resp = .error (.transport resp.status) := by
      unfold _fetch_remote_image
      simp [hst]
    rw [hred, hf]
    exact ⟨rfl, rfl⟩
  · intro hst hct
    have hf : _fetch_remote_image resp =
        .error (.invalidImage "no \"Content-Type\" header") := by
      unfold _fetch_remote_image
      rcases hct with hct | hct <;> rw [hct]
      · simp [hst]
      · simp [hst, String.isEmpty_iff]
    rw [hred, hf]
  · intro ct hst hct hne hmem hmaj
    have he := isEmpty_false_of_ne ct hne
    have hmem2 : '/' ∈ ct.data := hmem
    have hf : _fetch_remote_image resp =
        .error (.invalidImage ("expected an image, got \"" ++ mimeMajor ct ++ "\"")) := by
      unfold _fetch_remote_image
      rw [hct]
      simp [hst, he, hmem2, hmaj]
    rw [hred, hf]
  · intro ct hst hct hmem hmaj
    have hne : ct ≠ "" := by
      intro hh
      rw [hh] at hmem
      exact absurd hmem (by decide)
    have he := isEmpty_false_of_ne ct hne
    have hmem2 : '/' ∈ ct.data := hmem
    have hf : _fetch_remote_image resp = .ok (resp.body, ct) := by
      unfold _fetch_remote_image
      rw [hct]
      simp [hst, he, hmem2, hmaj]
    rw [hred, hf]

theorem C2_remote_resolution_witness :
    _embed_image fetchW readFileW sniffW guessW "http://host/i.png" =
      .ok (dataUri "image/png" [1, 2, 3]) :=
  (C2_remote_resolution fetchW readFileW sniffW guessW "http://host/i.png"
      ⟨200, some "image/png", [1, 2, 3]⟩ (Or.inl (by decide)) rfl).2.2.2 "image/png"
    (by decide) rfl (by decide) (by decide)

/-- C2, as stated, is false on the code: a 404 makes the remote resolution
fail with the transport error of `raise_for_status` (`requests.HTTPError`),
which is not an `InvalidImageError` (`ValueError`); and a `Content-Type` of
`Image/png`, whose major type differs from `image`, is accepted because the
code compares after lowercasing. -/
theorem C2_counterexample :
    _fetch_remote_image ⟨404, some "image/png", [1]⟩ = .error (.transport 404)
    ∧ isInvalidImage (_fetch_remote_image ⟨404, some "image/png", [1]⟩) = false
    ∧ _fetch_remote_image ⟨200, some "Image/png", [1]⟩ = .ok ([1], "Image/png")
    ∧ mimeMajor "Image/png" ≠ "image" := by
  refine ⟨?_, ?_, ?_, ?_⟩
  · rfl
  · rfl
  · rfl
  · decide

/-- C3: the local-path MIME decision is the ordered three-stage fallback of
the claim — sniffed type first (failure naming the major type when it is not
an image type; in particular a sniffed `image/png` wins regardless of the
file extension), then the case-insensitive `<svg` scan of the first 500
bytes, then the extension guess with its two failure modes — provided the
sniffer only ever reports slash-containing MIME types. -/
theorem C3_local_fallback (sniff : List Nat → Option String)
    (guess : String → Option String) (data : List Nat) (path : String)
    (hs : ∀ m, sniff data = some m → '/' ∈ m.toList) :
    _fetch_local_image_and_mime sniff guess data path = localMimeSpec sniff guess data path
    ∧ (sniff data = some "image/png" →
        _fetch_local_image_and_mime sniff guess data path = .ok (data, "image/png")) := by
  have main : _fetch_local_image_and_mime sniff guess data path =
      localMimeSpec sniff guess data path := by
    unfold _fetch_local_image_and_mime localMimeSpec
    cases hm : sniff data with
    | none => rfl
    | some m =>
      have hmem := hs m hm
      dsimp only
      by_cases h6 : m.toList.take 6 = ("image/").toList
      · have hmaj := (mimeMajor_image_iff m hmem).mp h6
        rw [if_pos h6, if_pos hmaj]
      · have hmaj : ¬(mimeMajor m = "image") := fun hh =>
          h6 ((mimeMajor_image_iff m hmem).mpr hh)
        rw [if_neg h6, if_neg hmaj]
  refine ⟨main, ?_⟩
  intro hpng
  rw [main]
  unfold localMimeSpec
  rw [hpng]
  dsimp only
  rw [if_pos (show mimeMajor "image/png" = "image" by decide)]

theorem C3_local_fallback_witness :
    _fetch_local_image_and_mime sniffW guessW [9] "file.txt" =
      localMimeSpec sniffW guessW [9] "file.txt"
    ∧ _fetch_local_image_and_mime sniffW guessW [9] "file.txt" = .ok ([9], "image/png") := by
  have h := C3_local_fallback sniffW guessW [9] "file.txt"
    (fun m hm => by
      have hm2 : m = "image/png" := by
        have : some "image/png" = some m := hm
        injection this with h2
        exact h2.symm
      subst hm2
      decide)
  exact ⟨h.1, h.2 rfl⟩

/-- C7: the SVG post-processing applied by `badge` to the parsed document —
`_remove_blanks` (strip every nonempty text node, recurse through elements)
followed by minidom `normalize` (drop empty text nodes, merge adjacent text
nodes) — is idempotent on the document tree, so normalizing
already-normalized output reproduces it identically. -/
theorem C7_normalize_idempotent (n : Node) :
    svgNormalize (svgNormalize n) = svgNormalize n := by
  have hg := goodN_svgNormalize n
  have hfix := fix_of_goodN (svgNormalize n) hg
  show xmlNormalize (_remove_blanks (svgNormalize n)) = svgNormalize n
  rw [hfix.1, hfix.2]
